import Mathlib

/-!
Verification of the conversational document-QA / appointment-booking service
(`server/services/fastLangchainService.js` and the legacy keyword-only
service file) against its natural-language specification.

Conventions of the shallow embedding:
* JS strings are Lean `String`s; the JS string primitives used by the code
  (`toLowerCase`, `trim`, `split(' ')`, `includes`, `match(re, 'g')`) are
  re-implemented below over `List Char` so that every definition is
  executable and kernel-reducible.
* JS numbers are `Nat` where the code only ever holds counts/indices, and
  `ℝ` where the code does float arithmetic (cosine similarity and the
  hybrid-search scores).
* Calendar dates are epoch days (`Nat`, day 0 = 1970-01-01, a Thursday, so
  the JS weekday of epoch day `d` is `(d + 4) % 7`); instants are epoch
  seconds.  The server clock is modelled in UTC, matching the code's use of
  `formatInTimeZone(_, 'UTC', 'yyyy-MM-dd')`.
* External collaborators (the embedding service, the LLM, `date-fns`'s
  absolute-format `parse`, MongoDB writes) are parameters of the embedded
  functions: an `Option` result models a fallible call, a `Bool` flag models
  whether a persistence call succeeds, and an uninterpreted `String → String`
  models the LLM round-trip.
-/

namespace AIChatbot

/-! ## JS string primitives -/

/-- Models `String.prototype.toLowerCase` (the code only ever hits ASCII). -/
def toLowerStr (s : String) : String := ⟨s.data.map Char.toLower⟩

/-- Models `String.prototype.trim`: strip leading and trailing whitespace. -/
def trimStr (s : String) : String :=
  ⟨((s.data.dropWhile Char.isWhitespace).reverse.dropWhile Char.isWhitespace).reverse⟩

/-- Models `str.split(sep)` for a one-character separator: empty pieces are
kept, exactly as in JS. -/
def splitOnChar (sep : Char) : List Char → List (List Char)
  | [] => [[]]
  | c :: rest =>
    match splitOnChar sep rest with
    | [] => [[]]
    | w :: ws => if c = sep then [] :: w :: ws else (c :: w) :: ws

/-- Models `hay.includes(needle)`: `needle` occurs contiguously in `hay`
(the empty needle matches, as in JS). -/
def occursIn (needle hay : List Char) : Bool :=
  match hay with
  | [] => needle.isEmpty
  | _ :: rest => needle.isPrefixOf hay || occursIn needle rest

/-- Models `(hay.match(new RegExp(word, 'g')) || []).length` for a literal
`word` (the query words the code feeds in carry no regex metacharacters):
the number of non-overlapping occurrences, scanning left to right. -/
def countOccAux (needle : List Char) : List Char → Nat → Nat
  | [], _ => 0
  | c :: rest, skip =>
    if skip > 0 then countOccAux needle rest (skip - 1)
    else if needle ≠ [] ∧ needle.isPrefixOf (c :: rest) then
      1 + countOccAux needle rest (needle.length - 1)
    else countOccAux needle rest 0

def countOcc (needle hay : List Char) : Nat := countOccAux needle hay 0

/-- Decimal rendering of a `Nat` below 100 (the code only stringifies hour
values, all `< 24`); models the template interpolation of a JS number. -/
def natToStr (n : Nat) : String :=
  if n < 10 then ⟨[Char.ofNat (48 + n)]⟩
  else ⟨[Char.ofNat (48 + n / 10), Char.ofNat (48 + n % 10)]⟩

/-- Models `hour.toString().padStart(2, '0')` for `hour < 100`. -/
def pad2 (n : Nat) : String :=
  if n < 10 then "0" ++ natToStr n else natToStr n

/-- The word list of a lower-cased query: `queryLower.split(' ')` filtered to
words of length `> 2`, exactly as every search routine in the file does. -/
def queryWordsOf (queryLower : String) : List (List Char) :=
  (splitOnChar ' ' queryLower.data).filter (fun w => w.length > 2)

/-! ## Shared document model

A stored document as both service files keep it in the in-memory
`documentStore` map: id, filename, full extracted content and the chunk
list; each chunk carries its text and a (possibly empty) embedding vector. -/

structure Chunk where
  text : String
  embedding : List ℝ

structure StoredDoc where
  id : String
  filename : String
  content : String
  fileType : String
  chunks : List Chunk

/-! ## The JS stable sort

`results.sort((a, b) => b.score - a.score)` is a stable sort (ECMAScript
2019) into descending score order.  Any stable correct sort produces the
same list, so we model it by stable insertion: an element moves in front of
another only when its score is strictly larger, i.e. it is inserted behind
every earlier element of equal score. -/

def insDesc {α β : Type _} [LinearOrder β] (score : α → β) (x : α) : List α → List α
  | [] => [x]
  | y :: ys => if score y ≤ score x then x :: y :: ys else y :: insDesc score x ys

def sortDesc {α β : Type _} [LinearOrder β] (score : α → β) : List α → List α
  | [] => []
  | x :: xs => insDesc score x (sortDesc score xs)

theorem mem_insDesc {α β : Type _} [LinearOrder β] (score : α → β) (x : α)
    (l : List α) (z : α) (hz : z ∈ insDesc score x l) : z = x ∨ z ∈ l := by
  induction l with
  | nil => simp [insDesc] at hz; simp [hz]
  | cons y ys ih =>
    by_cases h : score y ≤ score x
    · simp only [insDesc, if_pos h, List.mem_cons] at hz
      rcases hz with h1 | h1 | h1
      · exact Or.inl h1
      · exact Or.inr (by simp [h1])
      · exact Or.inr (by simp [h1])
    · simp only [insDesc, if_neg h, List.mem_cons] at hz
      rcases hz with h1 | h1
      · exact Or.inr (by simp [h1])
      · rcases ih h1 with h2 | h2
        · exact Or.inl h2
        · exact Or.inr (by simp [h2])

theorem mem_sortDesc {α β : Type _} [LinearOrder β] (score : α → β)
    (l : List α) (z : α) (hz : z ∈ sortDesc score l) : z ∈ l := by
  induction l with
  | nil => simp [sortDesc] at hz
  | cons x xs ih =>
    rcases mem_insDesc score x (sortDesc score xs) z hz with h | h
    · simp [h]
    · exact List.mem_cons_of_mem _ (ih h)

/-- A stable descending sort of a constant-score list is the identity: with
every comparison a tie, the JS comparator returns 0 throughout and the
(stable) sort leaves the array as it was. -/
theorem sortDesc_const {α β : Type _} [LinearOrder β] (score : α → β) (c : β)
    (l : List α) (hl : ∀ x ∈ l, score x = c) : sortDesc score l = l := by
  induction l with
  | nil => rfl
  | cons x xs ih =>
    have hx : score x = c := hl x (by simp)
    have hxs : ∀ y ∈ xs, score y = c := fun y hy => hl y (by simp [hy])
    rw [sortDesc, ih hxs]
    cases xs with
    | nil => rfl
    | cons y ys =>
      have hy : score y = c := hxs y (by simp)
      simp [insDesc, hx, hy]

/-! ## The legacy keyword-only service (first service file)

`searchDocuments(query, k)` of the keyword-only `FastLangChainService`: a
"general" query short-circuits every document to its first 3 chunks with
the fixed score 10; otherwise the document scores the summed occurrence
counts of the query words in its content, and its relevant chunks are those
containing at least one query word.  Only documents ending up with a
non-empty chunk list are returned, sorted by score descending, top `k`
(the caller-side default is `k = 3`). -/

namespace Legacy

structure KWResult where
  documentId : String
  filename : String
  score : Nat
  chunks : List Chunk

def generalQueries : List String :=
  ["what is in", "what does", "tell me about", "content", "summary", "document", "information"]

def searchDocuments (store : List StoredDoc) (query : String) (k : Nat) : List KWResult :=
  let queryLower := toLowerStr query
  let isGeneralQuery := generalQueries.any (fun p => occursIn p.data queryLower.data)
  let results := store.filterMap (fun doc =>
    let contentLower := toLowerStr doc.content
    let sc :=
      if isGeneralQuery then (10, doc.chunks.take 3)
      else
        let qws := queryWordsOf queryLower
        let score := (qws.map (fun w => countOcc w contentLower.data)).sum
        (score,
          if score > 0 then
            doc.chunks.filter (fun c => qws.any (fun w => occursIn w (toLowerStr c.text).data))
          else [])
    if sc.2.length > 0 then
      some ⟨doc.id, doc.filename, sc.1, sc.2.take 3⟩
    else none)
  (sortDesc (fun r => r.score) results).take k

end Legacy

/-! ## The live hybrid service (`fastLangchainService.js`)

The service the chat controller imports.  Externals are parameters: the
query-embedding call is an `Option (List ℝ)` (`none` = the call failed). -/

namespace Fast

/-- Models `cosineSimilarity(vecA, vecB)`: 0 on a length mismatch, 0 when either
norm is zero, otherwise `dot / (‖A‖ * ‖B‖)`. -/
noncomputable def cosineSimilarity (vecA vecB : List ℝ) : ℝ :=
  if vecA.length ≠ vecB.length then 0
  else
    let dotProduct := ((vecA.zip vecB).map (fun p => p.1 * p.2)).sum
    let normA := Real.sqrt ((vecA.map (fun x => x * x)).sum)
    let normB := Real.sqrt ((vecB.map (fun x => x * x)).sum)
    if normA = 0 ∨ normB = 0 then 0
    else dotProduct / (normA * normB)

/-- One element of `embeddedResults`/`keywordResults` in `searchDocuments`.
A semantic result carries `text := some chunk.text`; a keyword result has no
`text` property (JS `undefined`, hence `none`) but carries its own `chunks`
payload (`kwChunks`), which the grouping stage never reads. -/
structure RawResult where
  documentId : String
  filename : String
  score : ℝ
  text : Option String
  kwChunks : List (String × ℝ)
  type : String

/-- One element of the grouped output: per document the score and type of
the first (best-scoring) raw result, and up to 3 chunk entries whose text is
`result.text || result.chunk?.text` (so `none` for keyword-scored docs). -/
structure Group where
  documentId : String
  filename : String
  score : ℝ
  chunks : List (Option String × ℝ)
  searchType : Option String

/-- Does a document have any chunk with a non-empty embedding vector? -/
def hasEmbeddedChunks (doc : StoredDoc) : Bool :=
  doc.chunks.any (fun c => c.embedding.length > 0)

/-- Models `searchDocumentKeywords(doc, query, docId)`: summed occurrence counts of
the query words in the content; positive scores are normalised by 10; the
relevant chunks (at most 3) are those containing a query word. -/
noncomputable def searchDocumentKeywords (doc : StoredDoc) (query : String) : Option RawResult :=
  let queryLower := toLowerStr query
  let contentLower := toLowerStr doc.content
  let qws := queryWordsOf queryLower
  let score := (qws.map (fun w => countOcc w contentLower.data)).sum
  if score > 0 then
    let relevantChunks :=
      (doc.chunks.filter (fun c => qws.any (fun w => occursIn w (toLowerStr c.text).data))).take 3
    if relevantChunks.length > 0 then
      some ⟨doc.id, doc.filename, (score : ℝ) / 10, none,
            relevantChunks.map (fun c => (c.text, (score : ℝ) / 10)), "keyword"⟩
    else none
  else none

/-- Models `fallbackKeywordSearch(query, k)`: pure keyword search over the whole
store with raw (un-normalised) scores; its results carry no `searchType`
property, and their chunk texts are present. -/
noncomputable def fallbackKeywordSearch (store : List StoredDoc) (query : String) (k : Nat) :
    List Group :=
  let queryLower := toLowerStr query
  let results := store.filterMap (fun doc =>
    let contentLower := toLowerStr doc.content
    let qws := queryWordsOf queryLower
    let score := (qws.map (fun w => countOcc w contentLower.data)).sum
    let relevantChunks :=
      if score > 0 then
        (doc.chunks.filter (fun c => qws.any (fun w => occursIn w (toLowerStr c.text).data))).take 3
      else []
    if relevantChunks.length > 0 then
      some ⟨doc.id, doc.filename, (score : ℝ),
            relevantChunks.map (fun c => (some c.text, (score : ℝ))), none⟩
    else none)
  (sortDesc (fun g => g.score) results).take k

/-- The per-chunk semantic pass of `searchDocuments`: every chunk with a
non-empty embedding whose cosine similarity against the query embedding
exceeds the 0.3 threshold becomes a semantic candidate, in store order. -/
noncomputable def semanticResults (qe : List ℝ) (store : List StoredDoc) : List RawResult :=
  (store.map (fun doc => doc.chunks.filterMap (fun c =>
    if c.embedding.length > 0 then
      let sim := cosineSimilarity qe c.embedding
      if sim > 0.3 then some ⟨doc.id, doc.filename, sim, some c.text, [], "semantic"⟩
      else none
    else none))).flatten

/-- One step of the grouping loop of `searchDocuments`: the first raw result
of a document creates its group (fixing the group's score and search type);
later raw results of the same document only append a chunk entry while the
group holds fewer than 3. -/
def addToGroups : List Group → RawResult → List Group
  | [], r => [⟨r.documentId, r.filename, r.score, [(r.text, r.score)], some r.type⟩]
  | g :: gs, r =>
    if g.documentId = r.documentId then
      (if g.chunks.length < 3 then
        ⟨g.documentId, g.filename, g.score, g.chunks ++ [(r.text, r.score)], g.searchType⟩
      else g) :: gs
    else g :: addToGroups gs r

/-- Models `searchDocuments(query, k)` of the hybrid service.  `queryEmbedding`
models the external `embeddings.embedQuery(query)` call (`none` = it threw).
With no embedded document at all, or on an embedding failure, the whole
search falls back to `fallbackKeywordSearch`. -/
noncomputable def searchDocuments (store : List StoredDoc) (query : String)
    (queryEmbedding : Option (List ℝ)) (k : Nat) : List Group :=
  if store.any hasEmbeddedChunks = false then fallbackKeywordSearch store query k
  else
    match queryEmbedding with
    | none => fallbackKeywordSearch store query k
    | some qe =>
      let embeddedResults := semanticResults qe store
      let keywordResults := store.filterMap (fun doc =>
        if hasEmbeddedChunks doc = false then searchDocumentKeywords doc query else none)
      let allResults := embeddedResults ++ keywordResults
      let sortedAll := sortDesc (fun r => r.score) allResults
      let groups := sortedAll.foldl addToGroups []
      (sortDesc (fun g => g.score) groups).take k

end Fast

/-! ## `parseNaturalDate` (hybrid service, the live parser)

Dates are epoch days.  `today` is derived from the current instant by the
caller; the JS weekday `today.getDay()` of epoch day `d` is `(d + 4) % 7`
(day 0, 1970-01-01, was a Thursday).  The trailing absolute-format loop
(`date-fns` `parse` over the seven fixed format strings) is an external
library call and is passed in as `fmtParse`; every branch before it is
embedded from the source. -/

def weekdays : List String :=
  ["sunday", "monday", "tuesday", "wednesday", "thursday", "friday", "saturday"]

/-- Matches `/^in (\d+) days?$/` and yields the parsed day count. -/
def inDaysMatch (s : String) : Option Nat :=
  match (splitOnChar ' ' s.data).map (fun w => String.mk w) with
  | ["in", ds, unit] =>
    if (unit = "day" ∨ unit = "days") ∧ ds ≠ "" ∧ ds.data.all Char.isDigit then ds.toNat?
    else none
  | _ => none

/-- Matches `/^(\d+) days? from now$/` and yields the parsed day count. -/
def daysFromNowMatch (s : String) : Option Nat :=
  match (splitOnChar ' ' s.data).map (fun w => String.mk w) with
  | [ds, unit, "from", "now"] =>
    if (unit = "day" ∨ unit = "days") ∧ ds ≠ "" ∧ ds.data.all Char.isDigit then ds.toNat?
    else none
  | _ => none

/-- The weekday loop of `parseNaturalDate`: for each weekday index `i`
(Sunday = 0) it checks the bare name, then `next <name>`, then
`this <name>`, returning the computed `daysToAdd`.
* bare: `i - todayW`, bumped by 7 when `≤ 0` — so a same-day name yields 7;
* next: the same, then the dead-code `if (daysToAdd === 0) daysToAdd = 7`;
* this: `i - todayW`, bumped by 7 only when `< 0` — same-day yields 0. -/
def weekdayLookup (todayW : Nat) (s : String) : List (Nat × String) → Option Nat
  | [] => none
  | (i, name) :: rest =>
    if s = name then
      some (let d : Int := (i : Int) - (todayW : Int)
            (if d ≤ 0 then d + 7 else d).toNat)
    else if s = "next " ++ name then
      some (let d : Int := (i : Int) - (todayW : Int)
            let d2 := if d ≤ 0 then d + 7 else d
            (if d2 = 0 then 7 else d2).toNat)
    else if s = "this " ++ name then
      some (let d : Int := (i : Int) - (todayW : Int)
            (if d < 0 then d + 7 else d).toNat)
    else weekdayLookup todayW s rest

/-- Models `parseNaturalDate(dateString)`, with `today` the current epoch day and
`fmtParse` the external absolute-format fallback (it receives the original,
un-lowercased string, as in the source). -/
def parseNaturalDate (fmtParse : String → Option Nat) (today : Nat) (dateString : String) :
    Option Nat :=
  let lowerDateString := trimStr (toLowerStr dateString)
  if lowerDateString = "today" then some today
  else if lowerDateString = "tomorrow" then some (today + 1)
  else if lowerDateString = "day after tomorrow" ∨
          lowerDateString = "the day after tomorrow" ∨
          lowerDateString = "overmorrow" then some (today + 2)
  else
    match inDaysMatch lowerDateString with
    | some n => some (today + n)
    | none =>
      match daysFromNowMatch lowerDateString with
      | some n => some (today + n)
      | none =>
        match weekdayLookup ((today + 4) % 7) lowerDateString weekdays.enum with
        | some d => some (today + d)
        | none =>
          if lowerDateString = "next week" then some (today + 7)
          else fmtParse dateString

/-! ## Validators of the booking flow

Each models the regex the source tests, character by character. -/

/-- Models `/^[^\s@]+@[^\s@]+\.[^\s@]+$/.test(s)`.  The class `[^\s@]`
admits `.`, so the regex matches exactly when: no whitespace anywhere,
exactly one `@`, something before it, and after it a `.` that is neither
the first nor the last character of the tail. -/
def emailRegexTest (s : String) : Bool :=
  let cs := s.data
  cs.all (fun c => !c.isWhitespace) &&
    (match splitOnChar '@' cs with
     | [a, b] => !a.isEmpty && ((b.drop 1).dropLast.contains '.')
     | _ => false)

/-- Models `message.replace(/[\s\-\(\)]/g, '')`. -/
def cleanPhone (message : String) : String :=
  ⟨message.data.filter (fun c => !(c.isWhitespace || c == '-' || c == '(' || c == ')'))⟩

/-- Models `/^[\+]?[1-9][\d]{0,15}$/.test(s)`: optional `+`, a non-zero
leading digit, then up to 15 further digits. -/
def phoneRegexTest (s : String) : Bool :=
  let cs := match s.data with
    | '+' :: rest => rest
    | l => l
  match cs with
  | c :: rest =>
    decide ('1' ≤ c ∧ c ≤ '9') && rest.all Char.isDigit && decide (rest.length ≤ 15)
  | [] => false

/-! ## Time parsing (the `appointment_time` case) -/

/-- Matches the tail `\s?(AM|PM)$` (case-insensitive) of the time regexes,
returning the upper-cased period. -/
def tailAmPm (cs : List Char) : Option String :=
  let cs2 := match cs with
    | c :: rest => if c.isWhitespace then rest else cs
    | [] => ([] : List Char)
  match cs2 with
  | [a, m] =>
    if (a = 'a' ∨ a = 'A') ∧ (m = 'm' ∨ m = 'M') then some "AM"
    else if (a = 'p' ∨ a = 'P') ∧ (m = 'm' ∨ m = 'M') then some "PM"
    else none
  | _ => none

/-- Is `m1 m2` a `[0-5][0-9]` minute pair? -/
def isMinutePair (m1 m2 : Char) : Bool :=
  decide ('0' ≤ m1 ∧ m1 ≤ '5') && m2.isDigit

/-- Models `timeString.match(/^([1-9]|1[0-2])\s?(AM|PM)$/i)`: the hour
alternation tries the single digit `[1-9]` first and backtracks to `1[0-2]`,
exactly as the regex engine does. -/
def simpleTimeMatch (s : String) : Option (Nat × String) :=
  match s.data with
  | c :: rest =>
    if '1' ≤ c ∧ c ≤ '9' then
      match tailAmPm rest with
      | some per => some (c.toNat - 48, per)
      | none =>
        if c = '1' then
          match rest with
          | c2 :: rest2 =>
            if '0' ≤ c2 ∧ c2 ≤ '2' then
              (tailAmPm rest2).map (fun per => (10 + (c2.toNat - 48), per))
            else none
          | [] => none
        else none
    else none
  | [] => none

/-- Models `timeString.match(/^([1-9]|1[0-2]):([0-5][0-9])\s?(AM|PM)$/i)`,
yielding (hour, minute string, period). -/
def hmAmPmMatch (s : String) : Option (Nat × String × String) :=
  (match s.data with
   | c :: ':' :: m1 :: m2 :: rest =>
     if ('1' ≤ c ∧ c ≤ '9') ∧ isMinutePair m1 m2 = true then
       (tailAmPm rest).map (fun per => (c.toNat - 48, (⟨[m1, m2]⟩ : String), per))
     else none
   | _ => none) <|>
  (match s.data with
   | '1' :: c2 :: ':' :: m1 :: m2 :: rest =>
     if ('0' ≤ c2 ∧ c2 ≤ '2') ∧ isMinutePair m1 m2 = true then
       (tailAmPm rest).map (fun per => (10 + (c2.toNat - 48), (⟨[m1, m2]⟩ : String), per))
     else none
   | _ => none)

/-- Models `timeString.match(/^([0-1]?[0-9]|2[0-3]):[0-5][0-9]$/)`. -/
def h24Test (s : String) : Bool :=
  match s.data with
  | [h, ':', m1, m2] => h.isDigit && isMinutePair m1 m2
  | [h1, h2, ':', m1, m2] =>
    (decide (h1 = '0' ∨ h1 = '1') && h2.isDigit ||
     decide (h1 = '2') && decide ('0' ≤ h2 ∧ h2 ≤ '3')) && isMinutePair m1 m2
  | _ => false

/-- The 12-hour → 24-hour conversion shared by the two AM/PM branches of the
`appointment_time` case (`minute` is `"00"` in the bare-hour branch). -/
def convert12 (hour : Nat) (minute : String) (per : String) : String :=
  if per = "PM" ∧ hour ≠ 12 then natToStr (hour + 12) ++ ":" ++ minute
  else if per = "AM" ∧ hour = 12 then "00:" ++ minute
  else if per = "AM" then pad2 hour ++ ":" ++ minute
  else "12:" ++ minute

/-! ## The conversation state machine (hybrid service, the live one) -/

inductive Step
  | chat
  | appointment_name
  | appointment_email
  | appointment_phone
  | appointment_date
  | appointment_time
  | appointment_purpose
deriving DecidableEq, Repr

/-- Models `context.appointmentData`: a JS object whose fields appear as the flow
fills them (`none` = the property is absent). -/
structure AppointmentData where
  name : Option String
  email : Option String
  phone : Option String
  date : Option Nat
  time : Option String
  purpose : Option String
deriving DecidableEq, Repr

/-- The empty draft `{}`. -/
def emptyData : AppointmentData := ⟨none, none, none, none, none, none⟩

structure Context where
  currentStep : Step
  appointmentData : AppointmentData
  documentContext : List String
deriving DecidableEq, Repr

structure ChatMessage where
  role : String
  content : String
  timestamp : Nat
deriving DecidableEq, Repr

structure Conversation where
  sessionId : String
  messages : List ChatMessage
  context : Context
deriving DecidableEq, Repr

/-- A persisted Appointment document.  The code stores
`appointmentDate = new Date(date + "T" + time + ":00.000Z")`; here the
calendar day and the time string are kept separately (`appointmentDate` is
the epoch day, `appointmentTime` the canonical `HH:MM` string). -/
structure Appointment where
  name : String
  email : String
  phone : String
  appointmentDate : Nat
  appointmentTime : String
  purpose : String
  conversationId : String
deriving DecidableEq, Repr

/-- The durable store: conversations keyed by session id, plus the saved
appointments. -/
structure DB where
  conversations : List Conversation
  appointments : List Appointment
deriving DecidableEq, Repr

def cancelKeywords : List String :=
  ["cancel", "stop", "quit", "exit", "start again", "restart", "start over", "wrong", "mistake"]

def appointmentKeywords : List String :=
  ["call me", "book appointment", "schedule", "meeting", "call back", "contact me"]

/-- Models `keywords.some(k => message.toLowerCase().includes(k))`. -/
def containsAny (kws : List String) (message : String) : Bool :=
  kws.any (fun kw => occursIn kw.data (toLowerStr message).data)

def apologyResponse : String := "I apologize, but I encountered an error. Please try again."

def bookingFailResponse : String :=
  "I apologize, but there was an error booking your appointment. Please try again or contact us directly."

def cancelAckResponse : String :=
  "No problem! I\x27ve cancelled the appointment booking. How can I help you today? You can:\n\n• Ask questions about your documents\n• Say \x27book appointment\x27 to start a new appointment booking\n• Upload new documents\n\nWhat would you like to do?"

def startBookingResponse : String :=
  "I\x27d be happy to help you schedule an appointment! Let me collect some information from you.\n\nFirst, could you please tell me your full name?\n\n(You can say \x27cancel\x27 at any time to stop the booking process)"

def nameOkResponse (n : String) : String :=
  "Thank you, " ++ n ++ "! Now, could you please provide your email address?"

def emailOkResponse : String :=
  "Great! Now, please provide your phone number (with country code if international)."

def phoneOkResponse : String :=
  "Perfect! When would you like to schedule the appointment? You can say things like \x27tomorrow\x27, \x27next Monday\x27, or provide a specific date (YYYY-MM-DD format)."

def dateOkResponse (d : Nat) : String :=
  "Great! I\x27ve scheduled it for " ++ toString d ++ ". What time would you prefer? Please provide time in HH:MM format (e.g., 14:30 or 2:30 PM)."

def timeOkResponse : String :=
  "Excellent! Finally, could you briefly describe the purpose of your appointment? (Optional - you can say \x27general consultation\x27 if you prefer)"

/-- The confirmation summary returned on a successful save (the source
renders the stored date string; the model renders the epoch day). -/
def confirmResponse (name email phone : String) (date : Nat) (time purpose : String) : String :=
  "Perfect! I\x27ve successfully booked your appointment with the following details:\n\n📅 **Appointment Confirmed**\n👤 Name: " ++
    name ++ "\n📧 Email: " ++ email ++ "\n📞 Phone: " ++ phone ++ "\n📅 Date: " ++
    toString date ++ "\n⏰ Time: " ++ time ++ "\n📝 Purpose: " ++ purpose ++
    "\n\nYou\x27ll receive a confirmation email shortly. Is there anything else I can help you with?"

/-- Models `handleAppointmentFlow(conversation, message)`.  `now` is the current
instant in epoch seconds (the source's `new Date()`), `fmtParse` the
external absolute-date parser, and `apptSaveOk` models whether
`appointment.save()` succeeds.  Returns the response, the mutated
conversation, and the list of appointments persisted by this call. -/
def handleAppointmentFlow (fmtParse : String → Option Nat) (now : Nat) (apptSaveOk : Bool)
    (conv : Conversation) (message : String) : String × Conversation × List Appointment :=
  match conv.context.currentStep with
  | Step.appointment_name =>
    if (trimStr message).length < 2 then
      ("Please provide a valid name with at least 2 characters.", conv, [])
    else
      (nameOkResponse (trimStr message),
       { conv with context := { conv.context with
           currentStep := Step.appointment_email,
           appointmentData := { conv.context.appointmentData with name := some (trimStr message) } } },
       [])
  | Step.appointment_email =>
    if emailRegexTest (trimStr message) = false then
      ("Please provide a valid email address (e.g., john@example.com).", conv, [])
    else
      (emailOkResponse,
       { conv with context := { conv.context with
           currentStep := Step.appointment_phone,
           appointmentData := { conv.context.appointmentData with
             email := some (toLowerStr (trimStr message)) } } },
       [])
  | Step.appointment_phone =>
    if phoneRegexTest (cleanPhone message) = false then
      ("Please provide a valid phone number (numbers only, with optional + for country code).",
       conv, [])
    else
      (phoneOkResponse,
       { conv with context := { conv.context with
           currentStep := Step.appointment_date,
           appointmentData := { conv.context.appointmentData with phone := some (cleanPhone message) } } },
       [])
  | Step.appointment_date =>
    match parseNaturalDate fmtParse (now / 86400) message with
    | none =>
      ("I couldn\x27t understand that date format. Please try again with formats like \x27tomorrow\x27, \x27next Monday\x27, or \x27YYYY-MM-DD\x27 (e.g., 2024-01-15).",
       conv, [])
    | some d =>
      if d * 86400 < now then
        ("Please select a future date for your appointment.", conv, [])
      else
        (dateOkResponse d,
         { conv with context := { conv.context with
             currentStep := Step.appointment_time,
             appointmentData := { conv.context.appointmentData with date := some d } } },
         [])
  | Step.appointment_time =>
    let timeString := trimStr message
    let finalTime? : Option String :=
      match simpleTimeMatch timeString with
      | some hp => some (convert12 hp.1 "00" hp.2)
      | none =>
        match hmAmPmMatch timeString with
        | some hmp => some (convert12 hmp.1 hmp.2.1 hmp.2.2)
        | none => if h24Test timeString = true then some timeString else none
    match finalTime? with
    | none =>
      ("Please provide a valid time format. Examples: \x275 PM\x27, \x275:30 PM\x27, \x2717:00\x27, \x2714:30\x27",
       conv, [])
    | some fts =>
      (timeOkResponse,
       { conv with context := { conv.context with
           currentStep := Step.appointment_purpose,
           appointmentData := { conv.context.appointmentData with time := some fts } } },
       [])
  | Step.appointment_purpose =>
    let purpose := if trimStr message = "" then "General consultation" else trimStr message
    let ad := { conv.context.appointmentData with purpose := some purpose }
    let conv2 := { conv with context := { conv.context with appointmentData := ad } }
    if apptSaveOk = true then
      (confirmResponse (ad.name.getD "") (ad.email.getD "") (ad.phone.getD "") (ad.date.getD 0)
         (ad.time.getD "") purpose,
       { conv2 with context := { conv2.context with
           currentStep := Step.chat, appointmentData := emptyData } },
       [⟨ad.name.getD "", ad.email.getD "", ad.phone.getD "", ad.date.getD 0, ad.time.getD "",
         purpose, conv.sessionId⟩])
    else
      (bookingFailResponse,
       { conv2 with context := { conv2.context with currentStep := Step.chat } }, [])
  | Step.chat =>
    ("Let me help you with that. How can I assist you today?",
     { conv with context := { conv.context with currentStep := Step.chat } }, [])

/-- A fresh conversation document as `handleConversation` creates it. -/
def newConversation (sessionId : String) : Conversation :=
  ⟨sessionId, [], ⟨Step.chat, emptyData, []⟩⟩

/-- Models `conversation.save()`: an upsert by session id. -/
def saveConv (l : List Conversation) (c : Conversation) : List Conversation :=
  if l.any (fun x => x.sessionId == c.sessionId) then
    l.map (fun x => if x.sessionId == c.sessionId then c else x)
  else l ++ [c]

/-- Models `handleConversation(message, sessionId)`.  External effects are
parameters: `llm` models `handleDocumentQuery` (total — it catches its own
errors and returns a string), `findOk` whether `Conversation.findOne`
succeeds, `apptSaveOk` whether `appointment.save()` succeeds, `convSaveOk`
whether the final `conversation.save()` succeeds.  A failed `findOne` or
`save` lands in the catch branch: the fixed apology with `currentStep:
'chat'` is returned and the conversation is not persisted (an appointment
already saved by the flow stays saved). -/
def handleConversation (llm : String → String) (fmtParse : String → Option Nat) (now : Nat)
    (findOk apptSaveOk convSaveOk : Bool) (db : DB) (message sessionId : String) :
    (String × Step) × DB :=
  if findOk = false then ((apologyResponse, Step.chat), db)
  else
    let conv0 := (db.conversations.find? (fun c => c.sessionId == sessionId)).getD
      (newConversation sessionId)
    let conv1 := { conv0 with messages := conv0.messages ++ [⟨"user", message, now⟩] }
    let r :=
      if containsAny cancelKeywords message = true ∧ conv1.context.currentStep ≠ Step.chat then
        (cancelAckResponse,
         { conv1 with context := { conv1.context with
             currentStep := Step.chat, appointmentData := emptyData } },
         ([] : List Appointment))
      else if containsAny appointmentKeywords message = true ∧
              conv1.context.currentStep = Step.chat then
        (startBookingResponse,
         { conv1 with context := { conv1.context with
             currentStep := Step.appointment_name, appointmentData := emptyData } },
         ([] : List Appointment))
      else if conv1.context.currentStep ≠ Step.chat then
        handleAppointmentFlow fmtParse now apptSaveOk conv1 message
      else (llm message, conv1, ([] : List Appointment))
    let conv3 := { r.2.1 with messages := r.2.1.messages ++ [⟨"assistant", r.1, now⟩] }
    if convSaveOk = true then
      ((r.1, conv3.context.currentStep), ⟨saveConv db.conversations conv3, db.appointments ++ r.2.2⟩)
    else
      ((apologyResponse, Step.chat), ⟨db.conversations, db.appointments ++ r.2.2⟩)

/-- Fold a message sequence through `handleConversation`, collecting the
evolving store and the reported `(response, currentStep)` pairs in order. -/
def runMessages (llm : String → String) (fmtParse : String → Option Nat) (now : Nat)
    (findOk apptSaveOk convSaveOk : Bool) (sessionId : String) (db : DB) (msgs : List String) :
    DB × List (String × Step) :=
  msgs.foldl
    (fun acc m =>
      let r := handleConversation llm fmtParse now findOk apptSaveOk convSaveOk acc.1 m sessionId
      (r.2, acc.2 ++ [r.1]))
    (db, [])

/-! ## The background embedding queue -/

inductive QueueStatus
  | queued
  | processing
  | completed
  | error
deriving DecidableEq, Repr

/-- Models `queueEmbeddingGeneration(documentId, ...)`: the guard
`if (this.embeddingQueue.has(documentId)) return;` makes re-enqueueing a
no-op for any present entry.  The returned flag records whether a
background job (`setTimeout`) was scheduled by this call. -/
def queueEmbeddingGeneration (q : List (String × QueueStatus)) (documentId : String) :
    List (String × QueueStatus) × Bool :=
  if q.any (fun e => e.1 == documentId) then (q, false)
  else (q ++ [(documentId, QueueStatus.queued)], true)

/-- Models `getEmbeddingStatus(documentId)`: `'completed'` for an absent entry. -/
def getEmbeddingStatus (q : List (String × QueueStatus)) (documentId : String) : QueueStatus :=
  ((q.find? (fun e => e.1 == documentId)).map (fun e => e.2)).getD QueueStatus.completed

/-- An event of one document's background embedding job: a status write to
the queue map, or the deletion of the entry. -/
inductive QueueEv
  | set (s : QueueStatus)
  | remove
deriving DecidableEq, Repr

/-- The timed event trace of the background job `queueEmbeddingGeneration`
schedules for one document, read off the source's `setTimeout` structure:
at `0` the entry is written `queued`; the job fires after the 100 ms
`setTimeout` and writes `processing`; `dur` ms later the embedding work
ends.  On success it writes `completed` and schedules the cleanup deletion
300000 ms (5 minutes) later; in the catch branch it writes `error` — and
schedules nothing further. -/
def embeddingJobEvents (ok : Bool) (dur : Nat) : List (Nat × QueueEv) :=
  (0, QueueEv.set QueueStatus.queued) ::
  (100, QueueEv.set QueueStatus.processing) ::
  (if ok then
    [(100 + dur, QueueEv.set QueueStatus.completed),
     (100 + dur + 300000, QueueEv.remove)]
  else
    [(100 + dur, QueueEv.set QueueStatus.error)])

/-- The queue entry's final state after a trace runs to completion:
`none` = the entry was deleted from the map. -/
def runQueueEntry (evs : List (Nat × QueueEv)) : Option QueueStatus :=
  evs.foldl
    (fun _ e => match e.2 with
      | QueueEv.set s => some s
      | QueueEv.remove => none)
    none

/-! # Theorems -/

/-! ## Lookup after an upsert -/

theorem find_map_upsert (l : List Conversation) (c : Conversation)
    (h : l.any (fun x => x.sessionId == c.sessionId) = true) :
    (l.map (fun x => if x.sessionId == c.sessionId then c else x)).find?
      (fun x => x.sessionId == c.sessionId) = some c := by
  induction l with
  | nil => simp at h
  | cons y ys ih =>
    by_cases hy : (y.sessionId == c.sessionId) = true
    · simp only [List.map_cons, hy, if_true]
      exact List.find?_cons_of_pos _ (by simp)
    · have hy' : (y.sessionId == c.sessionId) = false := by simpa using hy
      simp only [List.any_cons, hy', Bool.false_or] at h
      simp only [List.map_cons, hy', Bool.false_eq_true, if_false]
      rw [List.find?_cons_of_neg _ (by simp [hy'])]
      exact ih h

/-- Looking a session up right after `conversation.save()` yields the saved
conversation document. -/
theorem find_saveConv (l : List Conversation) (c : Conversation) :
    (saveConv l c).find? (fun x => x.sessionId == c.sessionId) = some c := by
  unfold saveConv
  by_cases h : l.any (fun x => x.sessionId == c.sessionId) = true
  · simp only [h, if_true]
    exact find_map_upsert l c h
  · rw [Bool.not_eq_true] at h
    simp only [h, Bool.false_eq_true, if_false]
    rw [List.find?_append]
    have hn : l.find? (fun x => x.sessionId == c.sessionId) = none := by
      rw [List.find?_eq_none]
      intro x hx
      by_contra hc
      rw [List.any_eq_false] at h
      exact (h x hx) (by simpa using hc)
    simp [hn, List.find?]

theorem find_saveConv_pred (l : List Conversation) (c : Conversation) (sid : String)
    (hsid : c.sessionId = sid) :
    (saveConv l c).find? (fun x => x.sessionId == sid) = some c := by
  subst hsid; exact find_saveConv l c

/-! ## C3 — bare weekday parsing -/

/-- C3: the claim says a bare weekday name equal to today's weekday parses
to today's date.  It does not: epoch day 4 is a Monday (`(4+4) % 7 = 1`,
index 1 = "monday"), yet `parseNaturalDate` maps `"monday"` to day 11 —
seven days later — because the loop bumps `daysToAdd ≤ 0` by 7. -/
theorem C3_counterexample :
    (4 + 4) % 7 = 1 ∧ weekdays.getD 1 "" = "monday" ∧
    parseNaturalDate (fun _ => none) 4 "monday" = some 11 ∧
    parseNaturalDate (fun _ => none) 4 "monday" ≠ some 4 := by decide

/-- C3 (amended): a bare weekday name parses to the STRICTLY next
occurrence of that weekday — a distance `d` with `1 ≤ d ≤ 7` whose day has
the requested weekday; in particular when today already is that weekday the
result is seven days out, not today. -/
theorem C3_bare_weekday_strictly_next (fmtParse : String → Option Nat) (today i : Nat)
    (h : i < 7) :
    1 ≤ (i + 6 - (today + 4) % 7) % 7 + 1 ∧
    (i + 6 - (today + 4) % 7) % 7 + 1 ≤ 7 ∧
    (today + ((i + 6 - (today + 4) % 7) % 7 + 1) + 4) % 7 = i ∧
    parseNaturalDate fmtParse today (weekdays.getD i "") =
      some (today + ((i + 6 - (today + 4) % 7) % 7 + 1)) := by
  refine ⟨by omega, by omega, by omega, ?_⟩
  interval_cases i <;>
    · simp [parseNaturalDate, trimStr, toLowerStr, inDaysMatch, daysFromNowMatch,
        weekdayLookup, weekdays, splitOnChar, List.enum]
      omega

/-- C3 witness: the amended statement at `today = 4` (a Monday, weekday
index 1), weekday index 2 ("tuesday"): the parser returns day 5, tomorrow. -/
theorem C3_witness :
    1 ≤ (2 + 6 - (4 + 4) % 7) % 7 + 1 ∧
    (2 + 6 - (4 + 4) % 7) % 7 + 1 ≤ 7 ∧
    (4 + ((2 + 6 - (4 + 4) % 7) % 7 + 1) + 4) % 7 = 2 ∧
    parseNaturalDate (fun _ => none) 4 (weekdays.getD 2 "") =
      some (4 + ((2 + 6 - (4 + 4) % 7) % 7 + 1)) :=
  C3_bare_weekday_strictly_next (fun _ => none) 4 2 (by norm_num)

/-! ## C5 — queue retention -/

/-- C5: the claim says every entry reaching `completed` OR `error` is
purged after the retention window.  A failing job's trace sets the terminal
status `error` and contains no removal event at all: the entry's final
state is still `some error`, never `none`. -/
theorem C5_counterexample :
    runQueueEntry (embeddingJobEvents false 0) = some QueueStatus.error ∧
    (embeddingJobEvents false 0).filter (fun e => e.2 == QueueEv.remove) = [] := by decide

/-- C5 (amended): a successful job's entry is removed 300000 ms (5 minutes)
after completion — the final entry state is `none` and the one removal
event sits at `completion time + 300000` — while a failing job's entry ends
as `error` and its trace holds no removal event, so it is never purged. -/
theorem C5_retention_completed_only (dur : Nat) :
    runQueueEntry (embeddingJobEvents true dur) = none ∧
    (embeddingJobEvents true dur).filter (fun e => e.2 == QueueEv.remove) =
      [(100 + dur + 300000, QueueEv.remove)] ∧
    runQueueEntry (embeddingJobEvents false dur) = some QueueStatus.error ∧
    (embeddingJobEvents false dur).filter (fun e => e.2 == QueueEv.remove) = [] := by
  refine ⟨?_, ?_, ?_, ?_⟩ <;> simp [embeddingJobEvents, runQueueEntry]

/-! ## C6 — enqueue idempotence -/

/-- C6: while a document id is present in the embedding queue (in
particular with status `queued` or `processing`), re-enqueueing it returns
the queue unchanged and schedules no background job — so one enqueue runs
exactly one job. -/
theorem C6_enqueue_idempotent (q : List (String × QueueStatus)) (documentId : String)
    (s : QueueStatus) (hs : s = QueueStatus.queued ∨ s = QueueStatus.processing)
    (hmem : (documentId, s) ∈ q) :
    queueEmbeddingGeneration q documentId = (q, false) := by
  have hany : q.any (fun e => e.1 == documentId) = true :=
    List.any_eq_true.mpr ⟨(documentId, s), hmem, by simp⟩
  simp [queueEmbeddingGeneration, hany]

/-- C6 witness: a second enqueue of `"doc1"` while it is `queued` is a
no-op and schedules no job. -/
theorem C6_witness :
    queueEmbeddingGeneration [("doc1", QueueStatus.queued)] "doc1" =
      ([("doc1", QueueStatus.queued)], false) :=
  C6_enqueue_idempotent [("doc1", QueueStatus.queued)] "doc1" QueueStatus.queued
    (Or.inl rfl) (by decide)

/-! ## C10 — the catch branch of `handleConversation` -/

/-- C10: when an internal fallible step throws (`Conversation.findOne` or
the final `conversation.save()` — every other fallible step sits inside its
own try/catch), `handleConversation` returns the fixed apology with
`currentStep: 'chat'` and persists no conversation change, so the reported
state can disagree with the session's stored mid-booking state. -/
theorem C10_catch_returns_apology_chat (llm : String → String) (fmtParse : String → Option Nat)
    (now : Nat) (findOk apptSaveOk convSaveOk : Bool) (db : DB) (message sessionId : String)
    (h : findOk = false ∨ convSaveOk = false) :
    (handleConversation llm fmtParse now findOk apptSaveOk convSaveOk db message sessionId).1 =
      (apologyResponse, Step.chat) ∧
    (handleConversation llm fmtParse now findOk apptSaveOk convSaveOk db message
        sessionId).2.conversations = db.conversations := by
  rcases h with h | h
  · simp [handleConversation, h]
  · by_cases hf : findOk = false
    · simp [handleConversation, hf]
    · simp [handleConversation, hf, h]

/-- C10 witness: a failed `conversation.save()` on a session stored
mid-booking (`appointment_email`): the caller is told `chat` while the
stored step stays `appointment_email`. -/
theorem C10_witness :
    ((handleConversation (fun _ => "") (fun _ => none) 5 true true false
        ⟨[⟨"s1", [], ⟨Step.appointment_email, emptyData, []⟩⟩], []⟩ "hello" "s1").1 =
      (apologyResponse, Step.chat) ∧
     (handleConversation (fun _ => "") (fun _ => none) 5 true true false
        ⟨[⟨"s1", [], ⟨Step.appointment_email, emptyData, []⟩⟩], []⟩ "hello" "s1").2.conversations =
      (⟨[⟨"s1", [], ⟨Step.appointment_email, emptyData, []⟩⟩], []⟩ : DB).conversations) ∧
    Step.appointment_email ≠ Step.chat :=
  ⟨C10_catch_returns_apology_chat (fun _ => "") (fun _ => none) 5 true true false
      ⟨[⟨"s1", [], ⟨Step.appointment_email, emptyData, []⟩⟩], []⟩ "hello" "s1" (Or.inr rfl),
   by decide⟩

/-! ## C4 — cancellation discards the draft; a restarted booking is clean -/

/-- C4: from any non-`chat` booking state with any partial draft, a message
containing a cancellation keyword resets the stored session to `chat` with
every draft field emptied, and a subsequent `"book appointment"` message
starts the flow again with a completely empty draft — nothing leaks from
the cancelled attempt. -/
theorem C4_cancel_clears_draft (llm : String → String) (fmtParse : String → Option Nat)
    (now : Nat) (db : DB) (sessionId m : String) (conv : Conversation)
    (hfind : db.conversations.find? (fun c => c.sessionId == sessionId) = some conv)
    (hstep : conv.context.currentStep ≠ Step.chat)
    (hcancel : containsAny cancelKeywords m = true) :
    (handleConversation llm fmtParse now true true true db m sessionId).1 =
      (cancelAckResponse, Step.chat) ∧
    ((handleConversation llm fmtParse now true true true db m
        sessionId).2.conversations.find? (fun c => c.sessionId == sessionId)).map
      (fun c => c.context) = some ⟨Step.chat, emptyData, conv.context.documentContext⟩ ∧
    (handleConversation llm fmtParse now true true true
        (handleConversation llm fmtParse now true true true db m sessionId).2
        "book appointment" sessionId).1.2 = Step.appointment_name ∧
    ((handleConversation llm fmtParse now true true true
        (handleConversation llm fmtParse now true true true db m sessionId).2
        "book appointment" sessionId).2.conversations.find?
      (fun c => c.sessionId == sessionId)).map (fun c => c.context) =
      some ⟨Step.appointment_name, emptyData, conv.context.documentContext⟩ := by
  have hsid : conv.sessionId = sessionId := by
    have := List.find?_some hfind
    simpa using this
  have hb1 : containsAny cancelKeywords "book appointment" = false := by decide
  have hb2 : containsAny appointmentKeywords "book appointment" = true := by decide
  simp only [handleConversation, hfind, Option.getD_some, hcancel, hstep, hb1, hb2]
  simp [find_saveConv_pred, hsid, hstep]

/-- C4 witness: a session parked at `appointment_date` with three filled
draft fields; `"cancel"` resets it, `"book appointment"` restarts clean. -/
theorem C4_witness :
    (handleConversation (fun _ => "") (fun _ => none) 5 true true true
        ⟨[⟨"s1", [], ⟨Step.appointment_date, ⟨some "Ann", some "a@b.co", some "99", none, none,
          none⟩, []⟩⟩], []⟩ "cancel" "s1").1 = (cancelAckResponse, Step.chat) ∧
    ((handleConversation (fun _ => "") (fun _ => none) 5 true true true
        ⟨[⟨"s1", [], ⟨Step.appointment_date, ⟨some "Ann", some "a@b.co", some "99", none, none,
          none⟩, []⟩⟩], []⟩ "cancel" "s1").2.conversations.find?
      (fun c => c.sessionId == "s1")).map (fun c => c.context) =
      some ⟨Step.chat, emptyData, []⟩ ∧
    (handleConversation (fun _ => "") (fun _ => none) 5 true true true
        (handleConversation (fun _ => "") (fun _ => none) 5 true true true
          ⟨[⟨"s1", [], ⟨Step.appointment_date, ⟨some "Ann", some "a@b.co", some "99", none, none,
            none⟩, []⟩⟩], []⟩ "cancel" "s1").2
        "book appointment" "s1").1.2 = Step.appointment_name ∧
    ((handleConversation (fun _ => "") (fun _ => none) 5 true true true
        (handleConversation (fun _ => "") (fun _ => none) 5 true true true
          ⟨[⟨"s1", [], ⟨Step.appointment_date, ⟨some "Ann", some "a@b.co", some "99", none, none,
            none⟩, []⟩⟩], []⟩ "cancel" "s1").2
        "book appointment" "s1").2.conversations.find?
      (fun c => c.sessionId == "s1")).map (fun c => c.context) =
      some ⟨Step.appointment_name, emptyData, []⟩ :=
  C4_cancel_clears_draft (fun _ => "") (fun _ => none) 5
    ⟨[⟨"s1", [], ⟨Step.appointment_date, ⟨some "Ann", some "a@b.co", some "99", none, none,
      none⟩, []⟩⟩], []⟩ "s1" "cancel"
    ⟨"s1", [], ⟨Step.appointment_date, ⟨some "Ann", some "a@b.co", some "99", none, none,
      none⟩, []⟩⟩ (by decide) (by decide) (by decide)

/-! ## C9 — appointment-save failure keeps the draft -/

/-- C9: when `appointment.save()` fails at the `appointment_purpose` step,
the session resets to `chat` but the draft is NOT cleared: the persisted
conversation still holds all six filled fields (the purpose itself was
written into the draft before the failed save), and no appointment is
persisted — unlike the cancellation path, which empties the draft. -/
theorem C9_save_failure_keeps_draft (llm : String → String) (fmtParse : String → Option Nat)
    (now : Nat) (db : DB) (message sessionId : String) (conv : Conversation)
    (n e p : String) (dt : Nat) (t : String)
    (hfind : db.conversations.find? (fun c => c.sessionId == sessionId) = some conv)
    (hstep : conv.context.currentStep = Step.appointment_purpose)
    (hdata : conv.context.appointmentData = ⟨some n, some e, some p, some dt, some t, none⟩)
    (hnc : containsAny cancelKeywords message = false) :
    (handleConversation llm fmtParse now true false true db message sessionId).1 =
      (bookingFailResponse, Step.chat) ∧
    ((handleConversation llm fmtParse now true false true db message
        sessionId).2.conversations.find? (fun c => c.sessionId == sessionId)).map
      (fun c => c.context) =
      some ⟨Step.chat,
        ⟨some n, some e, some p, some dt, some t,
         some (if trimStr message = "" then "General consultation" else trimStr message)⟩,
        conv.context.documentContext⟩ ∧
    (handleConversation llm fmtParse now true false true db message sessionId).2.appointments =
      db.appointments := by
  have hsid : conv.sessionId = sessionId := by
    have := List.find?_some hfind
    simpa using this
  simp only [handleConversation, handleAppointmentFlow, hfind, Option.getD_some, hnc, hstep,
    hdata]
  simp only [Bool.false_eq_true, false_and, if_false, reduceCtorEq, ne_eq,
    not_false_eq_true, and_false, if_true, ite_true, ite_false, and_true, true_and,
    not_true_eq_false, false_and]
  simp [find_saveConv_pred, hsid]

/-- C9 witness: a failed save at the purpose step with the message
`"checkup"`: the stored context is `chat` but keeps all six draft fields,
and no appointment is persisted. -/
theorem C9_witness :
    (handleConversation (fun _ => "") (fun _ => none) 5 true false true
        ⟨[⟨"s9", [], ⟨Step.appointment_purpose, ⟨some "Ann", some "a@b.co", some "99", some 12,
          some "17:00", none⟩, []⟩⟩], []⟩ "checkup" "s9").1 =
      (bookingFailResponse, Step.chat) ∧
    ((handleConversation (fun _ => "") (fun _ => none) 5 true false true
        ⟨[⟨"s9", [], ⟨Step.appointment_purpose, ⟨some "Ann", some "a@b.co", some "99", some 12,
          some "17:00", none⟩, []⟩⟩], []⟩ "checkup" "s9").2.conversations.find?
      (fun c => c.sessionId == "s9")).map (fun c => c.context) =
      some ⟨Step.chat,
        ⟨some "Ann", some "a@b.co", some "99", some 12, some "17:00",
         some (if trimStr "checkup" = "" then "General consultation" else trimStr "checkup")⟩,
        (⟨"s9", [], ⟨Step.appointment_purpose, ⟨some "Ann", some "a@b.co", some "99", some 12,
          some "17:00", none⟩, []⟩⟩ : Conversation).context.documentContext⟩ ∧
    (handleConversation (fun _ => "") (fun _ => none) 5 true false true
        ⟨[⟨"s9", [], ⟨Step.appointment_purpose, ⟨some "Ann", some "a@b.co", some "99", some 12,
          some "17:00", none⟩, []⟩⟩], []⟩ "checkup" "s9").2.appointments =
      (⟨[⟨"s9", [], ⟨Step.appointment_purpose, ⟨some "Ann", some "a@b.co", some "99", some 12,
        some "17:00", none⟩, []⟩⟩], []⟩ : DB).appointments :=
  C9_save_failure_keeps_draft (fun _ => "") (fun _ => none) 5
    ⟨[⟨"s9", [], ⟨Step.appointment_purpose, ⟨some "Ann", some "a@b.co", some "99", some 12,
      some "17:00", none⟩, []⟩⟩], []⟩ "checkup" "s9"
    ⟨"s9", [], ⟨Step.appointment_purpose, ⟨some "Ann", some "a@b.co", some "99", some 12,
      some "17:00", none⟩, []⟩⟩ "Ann" "a@b.co" "99" 12 "17:00"
    (by decide) (by decide) (by decide) (by decide)

/-! ## C2 — the nominal end-to-end booking run

The session states after each message of the run
`"book appointment" → name → email → phone → "tomorrow" → "5 PM" → ""`
(fresh session `"s1"`, every persistence call succeeding). -/

def c2conv1 (now : Nat) : Conversation :=
  ⟨"s1", [⟨"user", "book appointment", now⟩, ⟨"assistant", startBookingResponse, now⟩],
   ⟨Step.appointment_name, emptyData, []⟩⟩

def c2conv2 (now : Nat) (name : String) : Conversation :=
  ⟨"s1", (c2conv1 now).messages ++
      [⟨"user", name, now⟩, ⟨"assistant", nameOkResponse (trimStr name), now⟩],
   ⟨Step.appointment_email, ⟨some (trimStr name), none, none, none, none, none⟩, []⟩⟩

def c2conv3 (now : Nat) (name email : String) : Conversation :=
  ⟨"s1", (c2conv2 now name).messages ++
      [⟨"user", email, now⟩, ⟨"assistant", emailOkResponse, now⟩],
   ⟨Step.appointment_phone,
    ⟨some (trimStr name), some (toLowerStr (trimStr email)), none, none, none, none⟩, []⟩⟩

def c2conv4 (now : Nat) (name email phone : String) : Conversation :=
  ⟨"s1", (c2conv3 now name email).messages ++
      [⟨"user", phone, now⟩, ⟨"assistant", phoneOkResponse, now⟩],
   ⟨Step.appointment_date,
    ⟨some (trimStr name), some (toLowerStr (trimStr email)), some (cleanPhone phone),
     none, none, none⟩, []⟩⟩

def c2conv5 (now : Nat) (name email phone : String) : Conversation :=
  ⟨"s1", (c2conv4 now name email phone).messages ++
      [⟨"user", "tomorrow", now⟩, ⟨"assistant", dateOkResponse (now / 86400 + 1), now⟩],
   ⟨Step.appointment_time,
    ⟨some (trimStr name), some (toLowerStr (trimStr email)), some (cleanPhone phone),
     some (now / 86400 + 1), none, none⟩, []⟩⟩

def c2conv6 (now : Nat) (name email phone : String) : Conversation :=
  ⟨"s1", (c2conv5 now name email phone).messages ++
      [⟨"user", "5 PM", now⟩, ⟨"assistant", timeOkResponse, now⟩],
   ⟨Step.appointment_purpose,
    ⟨some (trimStr name), some (toLowerStr (trimStr email)), some (cleanPhone phone),
     some (now / 86400 + 1), some "17:00", none⟩, []⟩⟩

/-- The appointment the run persists. -/
def c2appt (now : Nat) (name email phone : String) : Appointment :=
  ⟨trimStr name, toLowerStr (trimStr email), cleanPhone phone, now / 86400 + 1, "17:00",
   "General consultation", "s1"⟩

def c2confirm (now : Nat) (name email phone : String) : String :=
  confirmResponse (trimStr name) (toLowerStr (trimStr email)) (cleanPhone phone)
    (now / 86400 + 1) "17:00" "General consultation"

def c2conv7 (now : Nat) (name email phone : String) : Conversation :=
  ⟨"s1", (c2conv6 now name email phone).messages ++
      [⟨"user", "", now⟩, ⟨"assistant", c2confirm now name email phone, now⟩],
   ⟨Step.chat, emptyData, []⟩⟩

theorem c2step1 (llm : String → String) (fmtParse : String → Option Nat) (now : Nat) :
    handleConversation llm fmtParse now true true true ⟨[], []⟩ "book appointment" "s1" =
      ((startBookingResponse, Step.appointment_name), ⟨[c2conv1 now], []⟩) := by
  have hb1 : containsAny cancelKeywords "book appointment" = false := by decide
  have hb2 : containsAny appointmentKeywords "book appointment" = true := by decide
  simp [handleConversation, newConversation, saveConv, hb1, hb2, c2conv1]

theorem c2step2 (llm : String → String) (fmtParse : String → Option Nat) (now : Nat)
    (name : String)
    (hn1 : containsAny cancelKeywords name = false)
    (hn2 : ¬ (trimStr name).length < 2) :
    handleConversation llm fmtParse now true true true ⟨[c2conv1 now], []⟩ name "s1" =
      ((nameOkResponse (trimStr name), Step.appointment_email), ⟨[c2conv2 now name], []⟩) := by
  simp [handleConversation, handleAppointmentFlow, saveConv, c2conv1, c2conv2, emptyData,
    hn1, hn2]

theorem c2step3 (llm : String → String) (fmtParse : String → Option Nat) (now : Nat)
    (name email : String)
    (he1 : containsAny cancelKeywords email = false)
    (he2 : emailRegexTest (trimStr email) = true) :
    handleConversation llm fmtParse now true true true ⟨[c2conv2 now name], []⟩ email "s1" =
      ((emailOkResponse, Step.appointment_phone), ⟨[c2conv3 now name email], []⟩) := by
  simp [handleConversation, handleAppointmentFlow, saveConv, c2conv2, c2conv3, emptyData,
    he1, he2]

theorem c2step4 (llm : String → String) (fmtParse : String → Option Nat) (now : Nat)
    (name email phone : String)
    (hp1 : containsAny cancelKeywords phone = false)
    (hp2 : phoneRegexTest (cleanPhone phone) = true) :
    handleConversation llm fmtParse now true true true ⟨[c2conv3 now name email], []⟩ phone
        "s1" =
      ((phoneOkResponse, Step.appointment_date), ⟨[c2conv4 now name email phone], []⟩) := by
  simp [handleConversation, handleAppointmentFlow, saveConv, c2conv3, c2conv4, emptyData,
    hp1, hp2]

theorem c2step5 (llm : String → String) (fmtParse : String → Option Nat) (now : Nat)
    (name email phone : String) :
    handleConversation llm fmtParse now true true true ⟨[c2conv4 now name email phone], []⟩
        "tomorrow" "s1" =
      ((dateOkResponse (now / 86400 + 1), Step.appointment_time),
       ⟨[c2conv5 now name email phone], []⟩) := by
  have hc1 : containsAny cancelKeywords "tomorrow" = false := by decide
  have hdate : parseNaturalDate fmtParse (now / 86400) "tomorrow" = some (now / 86400 + 1) := by
    simp [parseNaturalDate, trimStr, toLowerStr, inDaysMatch, daysFromNowMatch,
      weekdayLookup, weekdays, splitOnChar, List.enum]
  have hfut : ¬ ((now / 86400 + 1) * 86400 < now) := by omega
  simp [handleConversation, handleAppointmentFlow, saveConv, c2conv4, c2conv5, emptyData,
    hc1, hdate, hfut]

theorem c2step6 (llm : String → String) (fmtParse : String → Option Nat) (now : Nat)
    (name email phone : String) :
    handleConversation llm fmtParse now true true true ⟨[c2conv5 now name email phone], []⟩
        "5 PM" "s1" =
      ((timeOkResponse, Step.appointment_purpose), ⟨[c2conv6 now name email phone], []⟩) := by
  have hc2 : containsAny cancelKeywords "5 PM" = false := by decide
  have htr : trimStr "5 PM" = "5 PM" := by decide
  have ht : simpleTimeMatch "5 PM" = some (5, "PM") := by decide
  have htc : convert12 5 "00" "PM" = "17:00" := by decide
  simp [handleConversation, handleAppointmentFlow, saveConv, c2conv5, c2conv6, emptyData,
    hc2, htr, ht, htc]

theorem c2step7 (llm : String → String) (fmtParse : String → Option Nat) (now : Nat)
    (name email phone : String) :
    handleConversation llm fmtParse now true true true ⟨[c2conv6 now name email phone], []⟩
        "" "s1" =
      ((c2confirm now name email phone, Step.chat),
       ⟨[c2conv7 now name email phone], [c2appt now name email phone]⟩) := by
  have hc3 : containsAny cancelKeywords "" = false := by decide
  have htr : trimStr "" = "" := by decide
  simp [handleConversation, handleAppointmentFlow, saveConv, c2conv6, c2conv7, c2appt,
    c2confirm, emptyData, hc3, htr]

/-- C2: from a fresh `chat` session, the message sequence
`"book appointment"`, a valid name, a valid email, a valid phone,
`"tomorrow"`, `"5 PM"`, then a blank purpose message walks the state machine
through name→email→phone→date→time→purpose, persists exactly one
appointment — purpose `"General consultation"`, time `"17:00"` — and resets
the session to `chat` with the draft cleared.  (The validity hypotheses also
require the free-text inputs to contain no cancellation keyword, which
would divert the flow by design.) -/
theorem C2_booking_run (llm : String → String) (fmtParse : String → Option Nat) (now : Nat)
    (name email phone : String)
    (hn1 : containsAny cancelKeywords name = false)
    (hn2 : ¬ (trimStr name).length < 2)
    (he1 : containsAny cancelKeywords email = false)
    (he2 : emailRegexTest (trimStr email) = true)
    (hp1 : containsAny cancelKeywords phone = false)
    (hp2 : phoneRegexTest (cleanPhone phone) = true) :
    (runMessages llm fmtParse now true true true "s1" ⟨[], []⟩
        ["book appointment", name, email, phone, "tomorrow", "5 PM", ""]).2.map Prod.snd =
      [Step.appointment_name, Step.appointment_email, Step.appointment_phone,
       Step.appointment_date, Step.appointment_time, Step.appointment_purpose, Step.chat] ∧
    (runMessages llm fmtParse now true true true "s1" ⟨[], []⟩
        ["book appointment", name, email, phone, "tomorrow", "5 PM", ""]).1.appointments =
      [⟨trimStr name, toLowerStr (trimStr email), cleanPhone phone, now / 86400 + 1, "17:00",
        "General consultation", "s1"⟩] ∧
    ((runMessages llm fmtParse now true true true "s1" ⟨[], []⟩
        ["book appointment", name, email, phone, "tomorrow", "5 PM", ""]).1.conversations.find?
      (fun c => c.sessionId == "s1")).map (fun c => c.context) =
      some ⟨Step.chat, emptyData, []⟩ := by
  simp only [runMessages, List.foldl_cons, List.foldl_nil,
    c2step1 llm fmtParse now,
    c2step2 llm fmtParse now name hn1 hn2,
    c2step3 llm fmtParse now name email he1 he2,
    c2step4 llm fmtParse now name email phone hp1 hp2,
    c2step5 llm fmtParse now name email phone,
    c2step6 llm fmtParse now name email phone,
    c2step7 llm fmtParse now name email phone]
  refine ⟨by simp, by simp [c2appt], ?_⟩
  simp [c2conv7]

/-- C2 witness: the run with name `"John Doe"`, email `"John@Example.COM "`,
phone `"+1 (555) 123-4567"` at `now = 1000000`. -/
theorem C2_witness :
    (runMessages (fun _ => "") (fun _ => none) 1000000 true true true "s1" ⟨[], []⟩
        ["book appointment", "John Doe", "John@Example.COM ", "+1 (555) 123-4567", "tomorrow",
         "5 PM", ""]).2.map Prod.snd =
      [Step.appointment_name, Step.appointment_email, Step.appointment_phone,
       Step.appointment_date, Step.appointment_time, Step.appointment_purpose, Step.chat] ∧
    (runMessages (fun _ => "") (fun _ => none) 1000000 true true true "s1" ⟨[], []⟩
        ["book appointment", "John Doe", "John@Example.COM ", "+1 (555) 123-4567", "tomorrow",
         "5 PM", ""]).1.appointments =
      [⟨trimStr "John Doe", toLowerStr (trimStr "John@Example.COM "),
        cleanPhone "+1 (555) 123-4567", 1000000 / 86400 + 1, "17:00",
        "General consultation", "s1"⟩] ∧
    ((runMessages (fun _ => "") (fun _ => none) 1000000 true true true "s1" ⟨[], []⟩
        ["book appointment", "John Doe", "John@Example.COM ", "+1 (555) 123-4567", "tomorrow",
         "5 PM", ""]).1.conversations.find? (fun c => c.sessionId == "s1")).map
      (fun c => c.context) = some ⟨Step.chat, emptyData, []⟩ :=
  C2_booking_run (fun _ => "") (fun _ => none) 1000000 "John Doe" "John@Example.COM "
    "+1 (555) 123-4567" (by decide) (by decide) (by decide) (by decide) (by decide) (by decide)

/-! ## C7 — cosine similarity -/

theorem dotList_comm (a b : List ℝ) :
    ((a.zip b).map (fun p => p.1 * p.2)).sum = ((b.zip a).map (fun p => p.1 * p.2)).sum := by
  induction a generalizing b with
  | nil => cases b <;> simp
  | cons x xs ih =>
    cases b with
    | nil => simp
    | cons y ys => simp [ih ys, mul_comm]

theorem dotList_self (v : List ℝ) :
    ((v.zip v).map (fun p => p.1 * p.2)).sum = (v.map (fun x => x * x)).sum := by
  induction v with
  | nil => simp
  | cons x xs ih => simp [ih]

theorem sumsq_pos (v : List ℝ) (x : ℝ) (hx : x ∈ v) (hx0 : x ≠ 0) :
    0 < (v.map (fun y => y * y)).sum := by
  have h1 : x * x ≤ (v.map (fun y => y * y)).sum := by
    apply List.single_le_sum
    · intro y hy
      simp only [List.mem_map] at hy
      obtain ⟨z, _, rfl⟩ := hy
      exact mul_self_nonneg z
    · exact List.mem_map_of_mem _ hx
  have h2 : 0 < x * x := mul_self_pos.mpr hx0
  linarith

/-- Unfolding lemma: `cosineSimilarity` with its `let`s expanded. -/
theorem cosineSimilarity_eq (a b : List ℝ) :
    Fast.cosineSimilarity a b =
      if a.length ≠ b.length then 0
      else if Real.sqrt ((a.map (fun x => x * x)).sum) = 0 ∨
              Real.sqrt ((b.map (fun x => x * x)).sum) = 0 then 0
      else ((a.zip b).map (fun p => p.1 * p.2)).sum /
        (Real.sqrt ((a.map (fun x => x * x)).sum) *
         Real.sqrt ((b.map (fun x => x * x)).sum)) := rfl

/-- C7: the cosine similarity of the hybrid service satisfies
`similarity(v, v) = 1` for every vector with a non-zero component,
`similarity(v, w) = 0` when the lengths differ, `similarity(v, w) = 0` when
either vector is all-zero (zero norm), and symmetry. -/
theorem C7_cosine_properties :
    (∀ v : List ℝ, (∃ x ∈ v, x ≠ 0) → Fast.cosineSimilarity v v = 1) ∧
    (∀ v w : List ℝ, v.length ≠ w.length → Fast.cosineSimilarity v w = 0) ∧
    (∀ v w : List ℝ, ((∀ x ∈ v, x = 0) ∨ (∀ x ∈ w, x = 0)) → Fast.cosineSimilarity v w = 0) ∧
    (∀ a b : List ℝ, Fast.cosineSimilarity a b = Fast.cosineSimilarity b a) := by
  refine ⟨?self, ?len, ?zero, ?symm⟩
  case self =>
    intro v hv
    obtain ⟨x, hx, hx0⟩ := hv
    have hS : 0 < (v.map (fun y => y * y)).sum := sumsq_pos v x hx hx0
    have hsqrt : Real.sqrt ((v.map (fun y => y * y)).sum) ≠ 0 := by positivity
    rw [cosineSimilarity_eq]
    rw [if_neg (by simp), if_neg (by push_neg; exact ⟨hsqrt, hsqrt⟩)]
    rw [dotList_self, Real.mul_self_sqrt (le_of_lt hS)]
    exact div_self (ne_of_gt hS)
  case len =>
    intro v w hlen
    rw [cosineSimilarity_eq, if_pos hlen]
  case zero =>
    intro v w hz
    rw [cosineSimilarity_eq]
    by_cases hlen : v.length ≠ w.length
    · rw [if_pos hlen]
    · rw [if_neg hlen]
      rcases hz with hz | hz
      · have h0 : (v.map (fun x => x * x)).sum = 0 :=
          List.sum_eq_zero (by
            intro y hy
            simp only [List.mem_map] at hy
            obtain ⟨z, hzv, rfl⟩ := hy
            rw [hz z hzv, mul_zero])
        rw [if_pos (Or.inl (by rw [h0, Real.sqrt_zero]))]
      · have h0 : (w.map (fun x => x * x)).sum = 0 :=
          List.sum_eq_zero (by
            intro y hy
            simp only [List.mem_map] at hy
            obtain ⟨z, hzv, rfl⟩ := hy
            rw [hz z hzv, mul_zero])
        rw [if_pos (Or.inr (by rw [h0, Real.sqrt_zero]))]
  case symm =>
    intro a b
    rw [cosineSimilarity_eq, cosineSimilarity_eq]
    split_ifs <;> first | rfl | omega | tauto | rw [dotList_comm, mul_comm]

/-! ## C8 — the general-query short-circuit -/

/-- C8: the claim says a general-phrase query (e.g. `"summary"`) makes the
document search return every stored document's first 3 chunks with a fixed
high score, bypassing token matching.  The hybrid service the chat
controller uses has no such branch: on a store whose only document has no
embeddings and whose content does not contain the token `"summary"`, the
search returns nothing at all — while the *legacy* keyword-only service's
`searchDocuments` (where the branch exists) returns the document's first 3
chunks at score 10. -/
theorem C8_counterexample :
    Fast.searchDocuments [⟨"d1", "f1", "hello world", "txt", [⟨"hello world", []⟩]⟩]
      "summary" (some [1]) 3 = [] ∧
    Legacy.searchDocuments [⟨"d1", "f1", "hello world", "txt", [⟨"hello world", []⟩]⟩]
      "summary" 3 = [⟨"d1", "f1", 10, [⟨"hello world", []⟩]⟩] := by
  constructor
  · have hc : countOcc "summary".data (toLowerStr "hello world").data = 0 := by decide
    simp [Fast.searchDocuments, Fast.hasEmbeddedChunks, Fast.fallbackKeywordSearch,
      queryWordsOf, splitOnChar, toLowerStr, hc, sortDesc]
  · rfl

/-- The general branch of the legacy search, written as a map over the
documents that have at least one chunk. -/
theorem legacy_general_filterMap (store : List StoredDoc) :
    (store.filterMap (fun doc =>
        if 0 < doc.chunks.length then
          some (⟨doc.id, doc.filename, 10, doc.chunks.take 3⟩ : Legacy.KWResult)
        else none)) =
      (store.filter (fun d => !d.chunks.isEmpty)).map
        (fun d => ⟨d.id, d.filename, 10, d.chunks.take 3⟩) := by
  induction store with
  | nil => rfl
  | cons d ds ih =>
    by_cases h0 : d.chunks = []
    · simp [h0, ih]
    · have hl : 0 < d.chunks.length := List.length_pos.mpr h0
      have he : d.chunks.isEmpty = false := by simpa [List.isEmpty_iff] using h0
      simp [hl, he, ih]

/-- C8 (amended): in the LEGACY keyword-only service, every query
containing a general phrase bypasses token matching: `searchDocuments`
returns, for each of the first `k` documents (store order) that have at
least one chunk, that document's first 3 chunks with the fixed score 10.
The hybrid service in production applies no such special case (see the
counterexample). -/
theorem C8_legacy_general_query (store : List StoredDoc) (query : String) (k : Nat)
    (hgen : Legacy.generalQueries.any
      (fun p => occursIn p.data (toLowerStr query).data) = true) :
    Legacy.searchDocuments store query k =
      ((store.filter (fun d => !d.chunks.isEmpty)).map
        (fun d => (⟨d.id, d.filename, 10, d.chunks.take 3⟩ : Legacy.KWResult))).take k := by
  unfold Legacy.searchDocuments
  simp only [hgen, if_true, List.take_take, Nat.min_self, List.length_take]
  rw [show (store.filterMap (fun doc =>
        if 3 ⊓ doc.chunks.length > 0 then
          some (⟨doc.id, doc.filename, 10, doc.chunks.take 3⟩ : Legacy.KWResult)
        else none)) =
      store.filterMap (fun doc =>
        if 0 < doc.chunks.length then
          some (⟨doc.id, doc.filename, 10, doc.chunks.take 3⟩ : Legacy.KWResult)
        else none) from by
    apply List.filterMap_congr
    intro d _
    rcases Nat.eq_zero_or_pos d.chunks.length with h | h
    · simp [h]
    · have hm : 3 ⊓ d.chunks.length > 0 := by omega
      simp [h, hm]]
  rw [legacy_general_filterMap]
  exact congrArg (List.take k) (sortDesc_const (fun r : Legacy.KWResult => r.score) 10 _ (by
    intro x hx
    simp only [List.mem_map] at hx
    obtain ⟨d, _, rfl⟩ := hx
    rfl))

/-- C8 witness: the amended statement on a two-document store (the second
document has no chunks and is skipped) for the query `"summary"`. -/
theorem C8_witness :
    Legacy.searchDocuments
      [⟨"d1", "f1", "alpha", "txt", [⟨"c1", []⟩, ⟨"c2", []⟩]⟩,
       ⟨"d2", "f2", "beta", "txt", []⟩] "summary" 3 =
      (([⟨"d1", "f1", "alpha", "txt", [⟨"c1", []⟩, ⟨"c2", []⟩]⟩,
         ⟨"d2", "f2", "beta", "txt", []⟩].filter
          (fun d : StoredDoc => !d.chunks.isEmpty)).map
        (fun d => (⟨d.id, d.filename, 10, d.chunks.take 3⟩ : Legacy.KWResult))).take 3 :=
  C8_legacy_general_query
    [⟨"d1", "f1", "alpha", "txt", [⟨"c1", []⟩, ⟨"c2", []⟩]⟩,
     ⟨"d2", "f2", "beta", "txt", []⟩] "summary" 3 (by decide)

/-! ## C1 — keyword vs semantic ranking in hybrid search -/

/-- The embedded document of the C1 counterexample: one chunk whose
embedding matches the query embedding exactly (cosine similarity 1). -/
def c1docA : StoredDoc := ⟨"A", "fa", "xyz", "txt", [⟨"xyz", [1, 0]⟩]⟩

/-- The keyword document of the C1 counterexample: no embeddings, and the
query word `"abc"` occurs 11 times in the content (raw score 11). -/
def c1docB : StoredDoc :=
  ⟨"B", "fb", "abcabcabcabcabcabcabcabcabcabcabc", "txt",
   [⟨"abcabcabcabcabcabcabcabcabcabcabc", []⟩]⟩

def c1rA : Fast.RawResult := ⟨"A", "fa", 1, some "xyz", [], "semantic"⟩

noncomputable def c1rB : Fast.RawResult :=
  ⟨"B", "fb", (11:ℝ)/10, none,
   [("abcabcabcabcabcabcabcabcabcabcabc", (11:ℝ)/10)], "keyword"⟩

def c1gA : Fast.Group := ⟨"A", "fa", 1, [(some "xyz", 1)], some "semantic"⟩

noncomputable def c1gB : Fast.Group :=
  ⟨"B", "fb", (11:ℝ)/10, [(none, (11:ℝ)/10)], some "keyword"⟩

/-- The full hybrid pipeline evaluated on the counterexample store: the
keyword document (normalized score 11/10) ends up ranked FIRST, above the
semantic candidate of similarity 1. -/
theorem C1_cex_eval :
    Fast.searchDocuments [c1docA, c1docB] "abc" (some [1, 0]) 3 = [c1gB, c1gA] := by
  have hcs : Fast.cosineSimilarity [(1:ℝ), 0] [(1:ℝ), 0] = 1 := by
    rw [cosineSimilarity_eq]; norm_num
  have hany : ([c1docA, c1docB].any Fast.hasEmbeddedChunks) = true := by decide
  have hsem : Fast.semanticResults [1, 0] [c1docA, c1docB] = [c1rA] := by
    norm_num [Fast.semanticResults, List.filterMap_cons, hcs, c1docA, c1docB, c1rA]
  have hsum : ((queryWordsOf (toLowerStr "abc")).map
      (fun w => countOcc w (toLowerStr "abcabcabcabcabcabcabcabcabcabcabc").data)).sum = 11 := by
    decide
  have hb : (queryWordsOf (toLowerStr "abc")).any
      (fun w => occursIn w (toLowerStr "abcabcabcabcabcabcabcabcabcabcabc").data) = true := by
    decide
  have hkwB : Fast.searchDocumentKeywords c1docB "abc" = some c1rB := by
    simp only [Fast.searchDocumentKeywords, c1docB, hsum]
    norm_num [hb, c1rB, List.filter_cons]
  have ha : Fast.hasEmbeddedChunks c1docA = true := by decide
  have hb2 : Fast.hasEmbeddedChunks c1docB = false := by decide
  have hkws : [c1docA, c1docB].filterMap
      (fun doc => if Fast.hasEmbeddedChunks doc = false then
        Fast.searchDocumentKeywords doc "abc" else none) = [c1rB] := by
    simp [List.filterMap_cons, ha, hb2, hkwB]
  have hsort : sortDesc (fun r : Fast.RawResult => r.score) [c1rA, c1rB] = [c1rB, c1rA] := by
    have : ¬ ((c1rB.score : ℝ) ≤ c1rA.score) := by norm_num [c1rA, c1rB]
    simp [sortDesc, insDesc, this]
  have hgrp : [c1rB, c1rA].foldl Fast.addToGroups [] = [c1gB, c1gA] := by
    simp [Fast.addToGroups, c1rA, c1rB, c1gA, c1gB]
  have hsort2 : sortDesc (fun g : Fast.Group => g.score) [c1gB, c1gA] = [c1gB, c1gA] := by
    have : (c1gA.score : ℝ) ≤ c1gB.score := by norm_num [c1gA, c1gB]
    simp [sortDesc, insDesc, this]
  simp only [Fast.searchDocuments, hany, Bool.true_eq_false, if_false, hsem, hkws,
    List.singleton_append, hsort, hgrp, hsort2, List.take]

/-- The raw keyword score of a document for a query: summed non-overlapping
occurrence counts of the length-`>2` query words in the lower-cased content
(the quantity `searchDocumentKeywords` divides by 10). -/
def kwScore (query : String) (doc : StoredDoc) : Nat :=
  ((queryWordsOf (toLowerStr query)).map (fun w => countOcc w (toLowerStr doc.content).data)).sum

theorem searchDocumentKeywords_some (doc : StoredDoc) (query : String) (r : Fast.RawResult)
    (h : Fast.searchDocumentKeywords doc query = some r) :
    r.type = "keyword" ∧ r.score = (kwScore query doc : ℝ) / 10 ∧ 0 < kwScore query doc := by
  simp only [Fast.searchDocumentKeywords] at h
  split_ifs at h with h1 h2
  · injection h with h'
    subst h'
    exact ⟨rfl, rfl, h1⟩

theorem mem_semanticResults (qe : List ℝ) (store : List StoredDoc) (r : Fast.RawResult)
    (h : r ∈ Fast.semanticResults qe store) :
    r.type = "semantic" ∧ r.score > 0.3 := by
  simp only [Fast.semanticResults, List.mem_flatten, List.mem_map] at h
  obtain ⟨l, ⟨doc, hdoc, rfl⟩, hr⟩ := h
  simp only [List.mem_filterMap] at hr
  obtain ⟨c, hc, hcr⟩ := hr
  split_ifs at hcr with h1 h2
  · injection hcr with h'
    subst h'
    exact ⟨rfl, h2⟩

theorem mem_fallbackKeywordSearch (store : List StoredDoc) (query : String) (k : Nat)
    (g : Fast.Group) (h : g ∈ Fast.fallbackKeywordSearch store query k) :
    g.searchType = none := by
  simp only [Fast.fallbackKeywordSearch] at h
  have h2 := mem_sortDesc _ _ _ (List.mem_of_mem_take h)
  simp only [List.mem_filterMap] at h2
  obtain ⟨doc, _, hd⟩ := h2
  split_ifs at hd with h1
  · injection hd with h'
    subst h'
    rfl
  · simp_all

theorem mem_addToGroups (gs : List Fast.Group) (r : Fast.RawResult) (g : Fast.Group)
    (hg : g ∈ Fast.addToGroups gs r) :
    (∃ g0 ∈ gs, g.documentId = g0.documentId ∧ g.score = g0.score ∧
      g.searchType = g0.searchType) ∨
    (g.documentId = r.documentId ∧ g.score = r.score ∧ g.searchType = some r.type) := by
  induction gs with
  | nil =>
    simp only [Fast.addToGroups, List.mem_singleton] at hg
    subst hg
    exact Or.inr ⟨rfl, rfl, rfl⟩
  | cons g0 gs0 ih =>
    by_cases hid : g0.documentId = r.documentId
    · simp only [Fast.addToGroups, if_pos hid, List.mem_cons] at hg
      rcases hg with hg | hg
      · left
        refine ⟨g0, by simp, ?_⟩
        split_ifs at hg <;> simp [hg]
      · left
        exact ⟨g, by simp [hg], rfl, rfl, rfl⟩
    · simp only [Fast.addToGroups, if_neg hid, List.mem_cons] at hg
      rcases hg with hg | hg
      · left
        exact ⟨g0, by simp, by simp [hg]⟩
      · rcases ih hg with ⟨g1, hg1, hsig⟩ | hr
        · left
          exact ⟨g1, by simp [hg1], hsig⟩
        · right
          exact hr

theorem mem_foldl_addToGroups (rs : List Fast.RawResult) (gs : List Fast.Group)
    (g : Fast.Group) (hg : g ∈ rs.foldl Fast.addToGroups gs) :
    (∃ g0 ∈ gs, g.documentId = g0.documentId ∧ g.score = g0.score ∧
      g.searchType = g0.searchType) ∨
    (∃ r ∈ rs, g.documentId = r.documentId ∧ g.score = r.score ∧
      g.searchType = some r.type) := by
  induction rs generalizing gs with
  | nil =>
    left
    exact ⟨g, by simpa using hg, rfl, rfl, rfl⟩
  | cons r rs ih =>
    simp only [List.foldl_cons] at hg
    rcases ih _ hg with ⟨g0, hg0, hsig⟩ | ⟨r1, hr1, hsig⟩
    · rcases mem_addToGroups gs r g0 hg0 with ⟨g1, hg1, hsig1⟩ | hsigr
      · left
        exact ⟨g1, hg1, hsig.1.trans hsig1.1, hsig.2.1.trans hsig1.2.1,
          hsig.2.2.trans hsig1.2.2⟩
      · right
        exact ⟨r, by simp, hsig.1.trans hsigr.1, hsig.2.1.trans hsigr.2.1,
          hsig.2.2.trans hsigr.2.2⟩
    · right
      exact ⟨r1, by simp [hr1], hsig⟩

theorem searchDocuments_some_eq (store : List StoredDoc) (query : String) (qe : List ℝ)
    (k : Nat) (h : ¬ ((store.any Fast.hasEmbeddedChunks) = false)) :
    Fast.searchDocuments store query (some qe) k =
      (sortDesc (fun g : Fast.Group => g.score)
        ((sortDesc (fun r : Fast.RawResult => r.score)
          (Fast.semanticResults qe store ++ store.filterMap (fun doc =>
            if Fast.hasEmbeddedChunks doc = false then
              Fast.searchDocumentKeywords doc query
            else none))).foldl Fast.addToGroups [])).take k := by
  unfold Fast.searchDocuments
  rw [if_neg h]

/-- C1 (amended): in the sorted output of the hybrid `searchDocuments`,
every semantic-typed entry scores above the 0.3 threshold and every
keyword-typed entry's score is a raw occurrence count divided by 10; hence
whenever both kinds are present, a keyword-scored document whose normalized
score is at most `3/10` (raw count at most 3) ranks strictly below every
semantic candidate. -/
theorem C1_keyword_small_never_outranks (store : List StoredDoc) (query : String) (qe : List ℝ) (k : Nat)
    (gK gS : Fast.Group)
    (hK : gK ∈ Fast.searchDocuments store query (some qe) k)
    (hS : gS ∈ Fast.searchDocuments store query (some qe) k)
    (htK : gK.searchType = some "keyword")
    (htS : gS.searchType = some "semantic")
    (hsmall : gK.score ≤ 3 / 10) :
    gK.score < gS.score ∧
    ∃ d ∈ store, gK.score = (kwScore query d : ℝ) / 10 ∧ 0 < kwScore query d := by
  by_cases hemb : (store.any Fast.hasEmbeddedChunks) = false
  · exfalso
    unfold Fast.searchDocuments at hS
    rw [if_pos hemb] at hS
    rw [mem_fallbackKeywordSearch store query k gS hS] at htS
    cases htS
  · rw [searchDocuments_some_eq store query qe k hemb] at hK hS
    have hK1 := mem_sortDesc _ _ _ (List.mem_of_mem_take hK)
    have hS1 := mem_sortDesc _ _ _ (List.mem_of_mem_take hS)
    -- trace gK to a keyword raw result
    have hKtr := mem_foldl_addToGroups _ _ _ hK1
    have hStr := mem_foldl_addToGroups _ _ _ hS1
    rcases hKtr with ⟨g0, h0, _⟩ | ⟨rK, hrK, hsigK⟩
    · simp at h0
    rcases hStr with ⟨g0, h0, _⟩ | ⟨rS, hrS, hsigS⟩
    · simp at h0
    have hrKm := mem_sortDesc _ _ _ hrK
    have hrSm := mem_sortDesc _ _ _ hrS
    -- gS's raw result is semantic
    have hSsc : rS.score > 0.3 := by
      rcases List.mem_append.mp hrSm with hsem | hkw
      · exact (mem_semanticResults _ _ _ hsem).2
      · exfalso
        simp only [List.mem_filterMap] at hkw
        obtain ⟨d, _, hdr⟩ := hkw
        split_ifs at hdr with he2
        have hty := (searchDocumentKeywords_some d query rS hdr).1
        have h1 : rS.type = "semantic" := Option.some_inj.mp (hsigS.2.2.symm.trans htS)
        rw [hty] at h1
        exact absurd h1 (by decide)
    -- gK's raw result is keyword
    have hKkw : ∃ d ∈ store, rK.score = (kwScore query d : ℝ) / 10 ∧ 0 < kwScore query d := by
      rcases List.mem_append.mp hrKm with hsem | hkw
      · exfalso
        have hty := (mem_semanticResults _ _ _ hsem).1
        have h1 : rK.type = "keyword" := Option.some_inj.mp (hsigK.2.2.symm.trans htK)
        rw [hty] at h1
        exact absurd h1 (by decide)
      · simp only [List.mem_filterMap] at hkw
        obtain ⟨d, hd, hdr⟩ := hkw
        split_ifs at hdr with he2
        obtain ⟨_, hsc, hpos⟩ := searchDocumentKeywords_some d query rK hdr
        exact ⟨d, hd, hsc, hpos⟩
    obtain ⟨d, hd, hsc, hpos⟩ := hKkw
    have h03 : (0.3 : ℝ) = 3 / 10 := by norm_num
    constructor
    · rw [hsigK.2.1] at hsmall
      rw [hsigK.2.1, hsigS.2.1]
      linarith [hSsc, hsmall, h03]
    · exact ⟨d, hd, hsigK.2.1.trans hsc, hpos⟩

/-- C1: the claim says a keyword-scored document's normalized score
(`count / 10`) never exceeds any semantic candidate's score in the sorted
output of `searchDocuments`.  The count is unbounded: with a semantic
candidate at the maximal similarity 1 and a keyword document containing the
query word 11 times (score 11/10), the keyword document ranks FIRST, above
the semantic match. -/
theorem C1_counterexample :
    Fast.searchDocuments [c1docA, c1docB] "abc" (some [1, 0]) 3 = [c1gB, c1gA] ∧
    c1gB.searchType = some "keyword" ∧ c1gA.searchType = some "semantic" ∧
    c1gA.score > 0.3 ∧ c1gB.score > c1gA.score :=
  ⟨C1_cex_eval, rfl, rfl, by norm_num [c1gA], by norm_num [c1gA, c1gB]⟩

/-- The store of the C1 witness: the keyword document contains the query
word only twice, so its normalized score 2/10 stays at the 0.3 threshold or
below. -/
def c1docB2 : StoredDoc := ⟨"B", "fb", "abcabc", "txt", [⟨"abcabc", []⟩]⟩

noncomputable def c1rB2 : Fast.RawResult :=
  ⟨"B", "fb", (2:ℝ)/10, none, [("abcabc", (2:ℝ)/10)], "keyword"⟩

noncomputable def c1gB2 : Fast.Group :=
  ⟨"B", "fb", (2:ℝ)/10, [(none, (2:ℝ)/10)], some "keyword"⟩

theorem C1_witness_eval :
    Fast.searchDocuments [c1docA, c1docB2] "abc" (some [1, 0]) 3 = [c1gA, c1gB2] := by
  have hcs : Fast.cosineSimilarity [(1:ℝ), 0] [(1:ℝ), 0] = 1 := by
    rw [cosineSimilarity_eq]; norm_num
  have hsem : Fast.semanticResults [1, 0] [c1docA, c1docB2] = [c1rA] := by
    norm_num [Fast.semanticResults, List.filterMap_cons, hcs, c1docA, c1docB2, c1rA]
  have hsum : ((queryWordsOf (toLowerStr "abc")).map
      (fun w => countOcc w (toLowerStr "abcabc").data)).sum = 2 := by decide
  have hb : (queryWordsOf (toLowerStr "abc")).any
      (fun w => occursIn w (toLowerStr "abcabc").data) = true := by decide
  have hkwB : Fast.searchDocumentKeywords c1docB2 "abc" = some c1rB2 := by
    simp only [Fast.searchDocumentKeywords, c1docB2, hsum]
    norm_num [hb, c1rB2, List.filter_cons]
  have ha : Fast.hasEmbeddedChunks c1docA = true := by decide
  have hb2 : Fast.hasEmbeddedChunks c1docB2 = false := by decide
  have hkws : [c1docA, c1docB2].filterMap
      (fun doc => if Fast.hasEmbeddedChunks doc = false then
        Fast.searchDocumentKeywords doc "abc" else none) = [c1rB2] := by
    simp [List.filterMap_cons, ha, hb2, hkwB]
  have hany : ([c1docA, c1docB2].any Fast.hasEmbeddedChunks) = true := by decide
  have hsort : sortDesc (fun r : Fast.RawResult => r.score) [c1rA, c1rB2] = [c1rA, c1rB2] := by
    have : ((c1rB2.score : ℝ) ≤ c1rA.score) := by norm_num [c1rA, c1rB2]
    simp [sortDesc, insDesc, this]
  have hgrp : [c1rA, c1rB2].foldl Fast.addToGroups [] = [c1gA, c1gB2] := by
    simp [Fast.addToGroups, c1rA, c1rB2, c1gA, c1gB2]
  have hsort2 : sortDesc (fun g : Fast.Group => g.score) [c1gA, c1gB2] = [c1gA, c1gB2] := by
    have : (c1gB2.score : ℝ) ≤ c1gA.score := by norm_num [c1gA, c1gB2]
    simp [sortDesc, insDesc, this]
  simp only [Fast.searchDocuments, hany, Bool.true_eq_false, if_false, hsem, hkws,
    List.singleton_append, hsort, hgrp, hsort2, List.take]

/-- C1 witness: on the witness store the keyword group (score 2/10, at most
0.3) ranks strictly below the semantic group, and its score is a raw
occurrence count divided by 10. -/
theorem C1_witness :
    c1gB2.score < c1gA.score ∧
    ∃ d ∈ [c1docA, c1docB2], c1gB2.score = (kwScore "abc" d : ℝ) / 10 ∧
      0 < kwScore "abc" d :=
  C1_keyword_small_never_outranks [c1docA, c1docB2] "abc" [1, 0] 3 c1gB2 c1gA
    (by rw [C1_witness_eval]; exact List.mem_cons_of_mem _ (List.mem_cons_self _ _))
    (by rw [C1_witness_eval]; exact List.mem_cons_self _ _)
    rfl rfl (by norm_num [c1gB2])

end AIChatbot

